import Mathlib

set_option maxHeartbeats 1000000

/-!
Verification of the cell-extraction core of the Excel extraction tool in
`scripts/extract_excel_gui.py`.  The functions `get_range_data_from_pandas`,
`parse_position_args`, `extract_excel_info_single_file` and the two drivers
`extract_to_single_file` / `extract_to_multiple_files` are embedded as
executable Lean functions over explicit grids.  Warnings printed by the
script are modelled as structured log messages; raised exceptions are
modelled with `Except` errors.
-/

/-- Scalar cell values of a worksheet grid, following the closed variant of
the data model: numbers, text, dates, and the blank/NaN cell pandas places
in empty positions. -/
inductive Cell where
  | num (n : Int)
  | text (s : String)
  | date (d : Nat)
  | nan
  deriving DecidableEq, Repr

/-- A pandas DataFrame as read with `header=None`: a rows-by-columns grid.
`numCols` is the frame's column count (`df.shape[1]`); a well-formed frame
is rectangular, which theorems assume explicitly where they need it. -/
structure DataFrame where
  cells : List (List Cell)
  numCols : Nat
  deriving DecidableEq, Repr

/-- `df.shape[0]`, the row count of the frame. -/
def DataFrame.numRows (df : DataFrame) : Nat := df.cells.length

/-- `df.iloc[r, c]`: pandas integer-location lookup, with Python's negative
index wrap.  pandas raises IndexError outside the frame; in the script every
reach of `iloc` is guarded by explicit bounds checks, so the `getD` default
stands in only for positions those guarded paths never touch. -/
def DataFrame.iloc (df : DataFrame) (r c : Int) : Cell :=
  let r' : Int := if r < 0 then r + df.numRows else r
  let c' : Int := if c < 0 then c + df.numCols else c
  (df.cells.getD r'.toNat []).getD c'.toNat Cell.nan

/-- Python `range(lo, hi)` over integers. -/
def pyRange (lo hi : Int) : List Int :=
  (List.range (hi - lo).toNat).map fun k => lo + Int.ofNat k

/-- Python `c in s` membership test for one character. -/
def strContains (s : String) (c : Char) : Bool :=
  s.data.any fun x => x = c

/-- Python `str.split(sep)` for a one-character separator (never returns an
empty list; splitting the empty string yields one empty part). -/
def splitOnChar (sep : Char) : List Char → List (List Char)
  | [] => [[]]
  | c :: rest =>
    let r := splitOnChar sep rest
    if c = sep then [] :: r
    else
      match r with
      | [] => [[c]]
      | h :: t => (c :: h) :: t

/-- Python `sep.join(parts)` for a one-character separator. -/
def joinWithChar (sep : Char) : List (List Char) → List Char
  | [] => []
  | [x] => x
  | x :: xs => x ++ sep :: joinWithChar sep xs

/-- Value of a decimal-digit string, as computed by Python `int`. -/
def digitsToNat (cs : List Char) : Nat :=
  cs.foldl (fun a c => a * 10 + (c.toNat - 48)) 0

/-- The digit-suffix scan the source runs on a cell token: the first index
`i` with `1 ≤ i < len` whose suffix is all decimal digits; on success the
column letters `token[:i]` and the parsed row `int(token[i:])`.  `none`
models the raised ValueError. -/
def splitCellToken (s : String) : Option (String × Nat) :=
  match (List.range' 1 (s.data.length - 1)).find?
      (fun i => (s.data.drop i).all Char.isDigit) with
  | some i => some (⟨s.data.take i⟩, digitsToNat (s.data.drop i))
  | none => none

/-- openpyxl `column_index_from_string`: upcases the token, accepts one to
three letters A-Z, and returns the 1-based base-26 column number.  `none`
models the ValueError it raises on any other token. -/
def column_index_from_string (s : String) : Option Nat :=
  let up := s.data.map Char.toUpper
  if 1 ≤ up.length ∧ up.length ≤ 3 ∧ ∀ c ∈ up, 65 ≤ c.toNat ∧ c.toNat ≤ 90 then
    some (up.foldl (fun a c => a * 26 + (c.toNat - 64)) 0)
  else none

/-- The exceptions `get_range_data_from_pandas` can raise: the two
ValueErrors of the source for tokens without a digit suffix, the ValueError
openpyxl raises on a bad column name, and the unpacking error on a token
with more than one colon. -/
inductive ExtractError where
  | invalidCellFormat (tok : String)
  | invalidStartCell (tok : String)
  | invalidEndCell (tok : String)
  | invalidColumnName (tok : String)
  | rangeUnpack (tok : String)
  deriving DecidableEq, Repr

deriving instance DecidableEq for Except

/-- A value stored into the output record for one spec: Python `None` (the
missing marker), a single scalar, or the flattened list a range produces
(whose entries are scalars or `None` padding). -/
inductive Value where
  | pyNone
  | scalar (c : Cell)
  | seq (vs : List (Option Cell))
  deriving DecidableEq, Repr

/-- The warnings and errors the script prints, as structured messages. -/
inductive LogMsg where
  | warnSingleRow (row : Nat) (tok : String) (numRows : Nat)
  | warnSingleCol (colStr : String) (colIdx : Nat) (tok : String) (numCols : Nat)
  | warnRangeRows (tok : String) (numRows : Nat)
  | warnRangeCols (tok : String) (numCols : Nat)
  | errorExtracting (tok sheet : String) (e : ExtractError)
  | failReadSheet (sheet : String)
  | fileFailed (path : String)
  deriving DecidableEq, Repr

/-- The row-major value list built by the range branch of the source (rows
outer, columns inner, each row's slice followed by `None` padding when the
end column lies beyond the sheet), for already-parsed 1-based rows and
0-based column indices.  Run only after the row-bound check has passed. -/
def rangeValues (df : DataFrame) (sRow eRow sColIdx eColIdx : Nat) : List (Option Cell) :=
  ((pyRange ((sRow : Int) - 1) (min (eRow : Int) (df.numRows : Int))).map fun rIdx =>
    ((pyRange (sColIdx : Int) (min ((eColIdx : Int) + 1) (df.numCols : Int))).map fun cIdx =>
      some (df.iloc rIdx cIdx)) ++
    (if df.numCols ≤ eColIdx then List.replicate (eColIdx + 1 - df.numCols) none else [])).flatten

/-- `get_range_data_from_pandas(df, cell_range)`: resolve a coordinate
expression against the grid.  Returns the produced value together with the
warnings printed along the way, or the raised exception. -/
def get_range_data_from_pandas (df : DataFrame) (cellRange : String) :
    Except ExtractError (Value × List LogMsg) :=
  if strContains cellRange ':' = false then
    match splitCellToken cellRange with
    | none => .error (.invalidCellFormat cellRange)
    | some (colStr, row) =>
      match column_index_from_string colStr with
      | none => .error (.invalidColumnName colStr)
      | some colNum =>
        let colIdx := colNum - 1
        if df.numRows < row then
          .ok (.pyNone, [.warnSingleRow row cellRange df.numRows])
        else if df.numCols ≤ colIdx then
          .ok (.pyNone, [.warnSingleCol colStr colIdx cellRange df.numCols])
        else
          .ok (.scalar (df.iloc ((row : Int) - 1) (colIdx : Int)), [])
  else
    match splitOnChar ':' cellRange.data with
    | [s1, s2] =>
      match splitCellToken ⟨s1⟩ with
      | none => .error (.invalidStartCell ⟨s1⟩)
      | some (sColStr, sRow) =>
        match splitCellToken ⟨s2⟩ with
        | none => .error (.invalidEndCell ⟨s2⟩)
        | some (eColStr, eRow) =>
          match column_index_from_string sColStr with
          | none => .error (.invalidColumnName sColStr)
          | some sColNum =>
            match column_index_from_string eColStr with
            | none => .error (.invalidColumnName eColStr)
            | some eColNum =>
              let sColIdx := sColNum - 1
              let eColIdx := eColNum - 1
              if df.numRows < sRow ∨ df.numRows < eRow then
                .ok (.seq [], [.warnRangeRows cellRange df.numRows])
              else
                .ok (.seq (rangeValues df sRow eRow sColIdx eColIdx),
                  if df.numCols ≤ eColIdx then [.warnRangeCols cellRange df.numCols] else [])
    | _ => .error (.rangeUnpack cellRange)

/-- Python `str.isalpha` restricted to the character classes this repository
meets: ASCII letters and CJK unified ideographs.  (Python's predicate covers
all Unicode letters; every string the tool handles draws from these two
classes.) -/
def pyIsAlpha (c : Char) : Bool :=
  c.isAlpha || (decide (0x4E00 ≤ c.toNat) && decide (c.toNat ≤ 0x9FFF))

/-- The validity test of the dash-split scan in `parse_position_args`: the
candidate left side holds at least one decimal digit and at least one
alphabetic character. -/
def qualifiesSplit (left : List Char) : Bool :=
  left.any Char.isDigit && left.any pyIsAlpha

/-- The descending scan `for i in range(len(parts)-1, 0, -1)` of
`parse_position_args`, returning the first (hence largest) accepted split
point, or `none` when no candidate qualifies. -/
def findSplit (parts : List (List Char)) : Nat → Option Nat
  | 0 => none
  | i + 1 =>
    if qualifiesSplit (joinWithChar '-' (parts.take (i + 1))) then some (i + 1)
    else findSplit parts i

/-- One iteration of `parse_position_args`: split a raw spec line into the
coordinate expression and the destination field name. -/
def parseOneArg (arg : String) : String × String :=
  if strContains arg '-' then
    match findSplit (splitOnChar '-' arg.data) ((splitOnChar '-' arg.data).length - 1) with
    | some i => (⟨joinWithChar '-' ((splitOnChar '-' arg.data).take i)⟩,
                 ⟨joinWithChar '-' ((splitOnChar '-' arg.data).drop i)⟩)
    | none => (arg, arg)
  else (arg, arg)

/-- `parse_position_args`: parse every raw spec line into a
(cell_range, column_header) pair. -/
def parse_position_args (args : List String) : List (String × String) :=
  args.map parseOneArg

/-- A value stored in an output record: the worksheet/source-file provenance
strings, or an extracted `Value`. -/
inductive EVal where
  | strV (s : String)
  | exV (v : Value)
  deriving DecidableEq, Repr

/-- An output record: the Python dict `rowdict`, as an insertion-ordered
association list whose keys are unique by construction. -/
abbrev Record := List (String × EVal)

/-- Python dict assignment `d[k] = v`: overwrite the binding in place when
the key is present, otherwise append the new binding at the end. -/
def dictInsert : Record → String → EVal → Record
  | [], k, v => [(k, v)]
  | p :: rest, k, v => if p.1 = k then (k, v) :: rest else p :: dictInsert rest k v

/-- Python dict lookup `d[k]`. -/
def dictLookup : Record → String → Option EVal
  | [], _ => none
  | p :: rest, k => if p.1 = k then some p.2 else dictLookup rest k

/-- Python `k in d`. -/
def dictHasKey (d : Record) (k : String) : Bool :=
  (dictLookup d k).isSome

/-- Number of bindings for key `k` (1 at most for dicts built by
`dictInsert`). -/
def countKey : Record → String → Nat
  | [], _ => 0
  | p :: rest, k => (if p.1 = k then 1 else 0) + countKey rest k

/-- The per-spec step of the extraction loop: resolve one cell_range against
the sheet, producing a value (the missing marker `None` when the resolver
raises) and the log lines printed for this spec. -/
def resolveField (df : DataFrame) (tok sheet : String) : Value × List LogMsg :=
  match get_range_data_from_pandas df tok with
  | .ok (v, w) => (v, w)
  | .error e => (.pyNone, [.errorExtracting tok sheet e])

/-- The starting `rowdict` of a worksheet: provenance keys first. -/
def initRecord (sheet srcFile : String) : Record :=
  [("sheet", .strV sheet), ("source_file", .strV srcFile)]

/-- The worksheet extraction loop: apply every parsed spec in order to one
sheet, accumulating the record and the printed log lines. -/
def extractRecord (df : DataFrame) (sheet srcFile : String)
    (specs : List (String × String)) : Record × List LogMsg :=
  specs.foldl
    (fun acc spec =>
      (dictInsert acc.1 spec.2 (.exV (resolveField df spec.1 sheet).1),
       acc.2 ++ (resolveField df spec.1 sheet).2))
    (initRecord sheet srcFile, [])

/-- One worksheet of an input workbook; `read = none` models a sheet
`pd.read_excel` fails to parse (skipped with a logged warning). -/
structure Sheet where
  name : String
  read : Option DataFrame
  deriving DecidableEq, Repr

/-- One input workbook; `wb = none` models a file `pd.ExcelFile` cannot
open. -/
structure InputFile where
  path : String
  wb : Option (List Sheet)
  deriving DecidableEq, Repr

/-- `os.path.basename` for slash-separated paths. -/
def basename (p : String) : String :=
  ⟨(splitOnChar '/' p.data).getLastD []⟩

/-- The per-workbook record list: one record per successfully read sheet, in
sheet order (sheets that fail to read are skipped). -/
def sheetRecords (sheets : List Sheet) (srcFile : String)
    (parsed : List (String × String)) : List Record :=
  sheets.filterMap fun s => s.read.map fun df => (extractRecord df s.name srcFile parsed).1

/-- The fatal failures of one extraction call: the workbook cannot be opened,
or no sheet produced a record. -/
inductive FileError where
  | openFailure
  | noDataExtracted
  deriving DecidableEq, Repr

/-- An output table: the ordered column header and the record rows. -/
structure OutputTable where
  cols : List String
  rows : List Record
  deriving DecidableEq, Repr

/-- The header filter of the source: keep the columns of
`['sheet', 'source_file'] + headers` that occur in some record (pandas
`df_output.columns` is the union of the records' keys). -/
def finalColumns (parsed : List (String × String)) (recs : List Record) : List String :=
  (["sheet", "source_file"] ++ parsed.map Prod.snd).filter fun c =>
    recs.any fun r => dictHasKey r c

/-- `extract_excel_info_single_file`: extract one workbook into one output
table, or raise on an unopenable workbook or an empty result. -/
def extract_excel_info_single_file (f : InputFile) (params : List String) :
    Except FileError (OutputTable × Nat) :=
  match f.wb with
  | none => .error .openFailure
  | some sheets =>
    let parsed := parse_position_args params
    let results := sheetRecords sheets (basename f.path) parsed
    if results.isEmpty then .error .noDataExtracted
    else .ok (⟨finalColumns parsed results, results⟩, results.length)

/-- The merge-mode accumulation: records of every input file, in file order;
a file whose workbook cannot be opened contributes nothing. -/
def mergeRecords (files : List InputFile) (parsed : List (String × String)) : List Record :=
  (files.map fun f =>
    match f.wb with
    | none => []
    | some sheets => sheetRecords sheets (basename f.path) parsed).flatten

/-- `extract_to_single_file` (merge mode): accumulate every file's records
into one table; raise `NoDataExtracted` when nothing was produced. -/
def extract_to_single_file (files : List InputFile) (params : List String) :
    Except FileError OutputTable :=
  if (mergeRecords files (parse_position_args params)).isEmpty then .error .noDataExtracted
  else .ok ⟨finalColumns (parse_position_args params) (mergeRecords files (parse_position_args params)),
            mergeRecords files (parse_position_args params)⟩

/-- `os.path.splitext`: split off the extension at the last dot, provided
that dot sits after the last slash and some earlier character of the file
name is not a dot. -/
def splitext (p : String) : String × String :=
  let cs := p.data
  let sepIdx : Int := (cs.length : Int) - ((splitOnChar '/' cs).getLastD []).length - 1
  match (List.range cs.length).filter (fun i => cs.getD i ' ' = '.') |>.getLast? with
  | some dotIdx =>
    if sepIdx < (dotIdx : Int) ∧
        ((cs.drop (sepIdx + 1).toNat).take (dotIdx - (sepIdx + 1).toNat)).any (fun x => x ≠ '.') then
      (⟨cs.take dotIdx⟩, ⟨cs.drop dotIdx⟩)
    else (p, "")
  | none => (p, "")

/-- The output name `{base}_{input_stem}{ext}` derived in per-file mode. -/
def derivedOutputName (outputName inputPath : String) : String :=
  let base := (splitext outputName).1
  let ext0 := (splitext outputName).2
  let ext := if ext0 = "" then ".xlsx" else ext0
  base ++ "_" ++ (splitext (basename inputPath)).1 ++ ext

/-- `extract_to_multiple_files` (per-file mode): run the single-file
extraction on every input file; successes yield (derived output name, table)
pairs, failures yield log lines, and the loop never aborts. -/
def extract_to_multiple_files (files : List InputFile) (params : List String)
    (outputName : String) : List (String × OutputTable) × List LogMsg :=
  (files.filterMap fun f =>
    match extract_excel_info_single_file f params with
    | .ok (tbl, _) => some (derivedOutputName outputName f.path, tbl)
    | .error _ => none,
   files.filterMap fun f =>
    match extract_excel_info_single_file f params with
    | .ok _ => none
    | .error _ => some (LogMsg.fileFailed f.path))

theorem splitOnChar_ne_nil (sep : Char) (cs : List Char) : splitOnChar sep cs ≠ [] := by
  cases cs with
  | nil => simp [splitOnChar]
  | cons c rest =>
    unfold splitOnChar
    by_cases h : c = sep
    · simp [h]
    · simp only [if_neg h]
      cases splitOnChar sep rest <;> simp

theorem findSplit_eq_some (parts : List (List Char)) (n : Nat) :
    ∀ i, 1 ≤ i → i ≤ n →
      qualifiesSplit (joinWithChar '-' (parts.take i)) = true →
      (∀ j, i < j → j ≤ n → qualifiesSplit (joinWithChar '-' (parts.take j)) = false) →
      findSplit parts n = some i := by
  induction n with
  | zero => intro i h1 h2 _ _; omega
  | succ n ih =>
    intro i h1 h2 hq hmax
    rcases Nat.lt_or_ge i (n + 1) with hlt | hge
    · have hf := hmax (n + 1) hlt (Nat.le_refl _)
      unfold findSplit
      rw [if_neg (by simp [hf])]
      exact ih i h1 (by omega) hq (fun j hj1 hj2 => hmax j hj1 (by omega))
    · have hin : i = n + 1 := by omega
      subst hin
      unfold findSplit
      rw [if_pos hq]

theorem findSplit_eq_none (parts : List (List Char)) (n : Nat) :
    (∀ i, 1 ≤ i → i ≤ n → qualifiesSplit (joinWithChar '-' (parts.take i)) = false) →
    findSplit parts n = none := by
  induction n with
  | zero => intro _; rfl
  | succ n ih =>
    intro h
    unfold findSplit
    rw [if_neg (by simp [h (n + 1) (by omega) (Nat.le_refl _)])]
    exact ih fun i h1 h2 => h i h1 (by omega)

/-- C1: spec parsing.  A raw spec line without a dash parses to the whole
line twice; with dashes, candidate split points are scanned from the
rightmost dash toward the left and the first candidate whose left side
holds at least one digit and at least one alphabetic character wins; when
no candidate qualifies both components fall back to the whole line.  The
four concrete examples of the specification hold. -/
theorem claim_C1_spec_parsing (s : String) :
    (strContains s '-' = false → parseOneArg s = (s, s))
  ∧ (strContains s '-' = true →
      ∀ i, 1 ≤ i → i < (splitOnChar '-' s.data).length →
      qualifiesSplit (joinWithChar '-' ((splitOnChar '-' s.data).take i)) = true →
      (∀ j, i < j → j < (splitOnChar '-' s.data).length →
        qualifiesSplit (joinWithChar '-' ((splitOnChar '-' s.data).take j)) = false) →
      parseOneArg s = (⟨joinWithChar '-' ((splitOnChar '-' s.data).take i)⟩,
                       ⟨joinWithChar '-' ((splitOnChar '-' s.data).drop i)⟩))
  ∧ (strContains s '-' = true →
      (∀ i, 1 ≤ i → i < (splitOnChar '-' s.data).length →
        qualifiesSplit (joinWithChar '-' ((splitOnChar '-' s.data).take i)) = false) →
      parseOneArg s = (s, s))
  ∧ parseOneArg "F4-样品名称" = ("F4", "样品名称")
  ∧ parseOneArg "G15-峰面积%" = ("G15", "峰面积%")
  ∧ parseOneArg "F1:P1-Header" = ("F1:P1", "Header")
  ∧ parseOneArg "NoDashHere" = ("NoDashHere", "NoDashHere") := by
  refine ⟨?_, ?_, ?_, by decide, by decide, by decide, by decide⟩
  · intro h
    simp [parseOneArg, h]
  · intro hc i h1 h2 hq hmax
    have hlen : 1 ≤ (splitOnChar '-' s.data).length :=
      List.length_pos.mpr (splitOnChar_ne_nil '-' s.data)
    unfold parseOneArg
    rw [if_pos hc]
    rw [findSplit_eq_some (splitOnChar '-' s.data) ((splitOnChar '-' s.data).length - 1) i h1
      (by omega) hq (fun j hj1 hj2 => hmax j hj1 (by omega))]
  · intro hc hnone
    have hlen : 1 ≤ (splitOnChar '-' s.data).length :=
      List.length_pos.mpr (splitOnChar_ne_nil '-' s.data)
    unfold parseOneArg
    rw [if_pos hc]
    rw [findSplit_eq_none (splitOnChar '-' s.data) ((splitOnChar '-' s.data).length - 1)
      (fun i h1 h2 => hnone i h1 (by omega))]

theorem claim_C1_spec_parsing_witness :
    parseOneArg "A1-B-C" = ("A1-B", "C") := by
  have h := (claim_C1_spec_parsing "A1-B-C").2.1 (by decide) 2 (by decide) (by decide)
    (by decide) (by intro j hj1 hj2; simp [splitOnChar] at hj2; omega)
  exact h

theorem iloc_nonneg (df : DataFrame) (r c : Nat) :
    df.iloc (r : Int) (c : Int) = (df.cells.getD r []).getD c Cell.nan := by
  unfold DataFrame.iloc
  have h1 : ¬((r : Int) < 0) := by omega
  have h2 : ¬((c : Int) < 0) := by omega
  simp [h1, h2]

theorem splitCellToken_eq_none (cs : List Char)
    (h : ∀ i ∈ List.range' 1 (cs.length - 1), (cs.drop i).all Char.isDigit = false) :
    splitCellToken ⟨cs⟩ = none := by
  unfold splitCellToken
  rw [List.find?_eq_none.mpr]
  intro i hi
  simp [h i hi]

/-- C7: coordinate parsing failure.  A token that is empty or has no proper
all-digit suffix makes resolution raise the invalid-cell ValueError: for a
colon-free token directly, and for a colon-split range at whichever endpoint
is malformed (the start endpoint is checked first). -/
theorem claim_C7_invalid_coordinate (df : DataFrame) (t : String) :
    (strContains t ':' = false →
      (t.data = [] ∨
        ∀ i ∈ List.range' 1 (t.data.length - 1), (t.data.drop i).all Char.isDigit = false) →
      get_range_data_from_pandas df t = .error (.invalidCellFormat t))
  ∧ (∀ s1 s2, strContains t ':' = true → splitOnChar ':' t.data = [s1, s2] →
      ((s1 = [] ∨ ∀ i ∈ List.range' 1 (s1.length - 1), (s1.drop i).all Char.isDigit = false) →
        get_range_data_from_pandas df t = .error (.invalidStartCell ⟨s1⟩))
      ∧ (∀ p, splitCellToken ⟨s1⟩ = some p →
         (s2 = [] ∨ ∀ i ∈ List.range' 1 (s2.length - 1), (s2.drop i).all Char.isDigit = false) →
          get_range_data_from_pandas df t = .error (.invalidEndCell ⟨s2⟩))) := by
  constructor
  · intro hnc hm
    have hnone : splitCellToken t = none := by
      rcases hm with hm | hm
      · exact splitCellToken_eq_none t.data (by simp [hm])
      · exact splitCellToken_eq_none t.data hm
    simp [get_range_data_from_pandas, hnc, hnone]
  · intro s1 s2 hc hsplit
    constructor
    · intro hm
      have hnone : splitCellToken ⟨s1⟩ = none := by
        rcases hm with hm | hm
        · exact splitCellToken_eq_none s1 (by simp [hm])
        · exact splitCellToken_eq_none s1 hm
      simp [get_range_data_from_pandas, hc, hsplit, hnone]
    · intro p hp hm
      have hnone : splitCellToken ⟨s2⟩ = none := by
        rcases hm with hm | hm
        · exact splitCellToken_eq_none s2 (by simp [hm])
        · exact splitCellToken_eq_none s2 hm
      simp [get_range_data_from_pandas, hc, hsplit, hp, hnone]

theorem claim_C7_invalid_coordinate_witness :
    get_range_data_from_pandas ⟨[[Cell.nan]], 1⟩ "ABC" =
      .error (.invalidCellFormat "ABC")
  ∧ get_range_data_from_pandas ⟨[[Cell.nan]], 1⟩ "XY:B2" =
      .error (.invalidStartCell "XY")
  ∧ get_range_data_from_pandas ⟨[[Cell.nan]], 1⟩ "A1:ZZ" =
      .error (.invalidEndCell "ZZ") := by
  refine ⟨?_, ?_, ?_⟩
  · exact (claim_C7_invalid_coordinate ⟨[[Cell.nan]], 1⟩ "ABC").1 (by decide)
      (Or.inr (by decide))
  · exact ((claim_C7_invalid_coordinate ⟨[[Cell.nan]], 1⟩ "XY:B2").2
      "XY".data "B2".data (by decide) (by decide)).1 (Or.inr (by decide))
  · exact ((claim_C7_invalid_coordinate ⟨[[Cell.nan]], 1⟩ "A1:ZZ").2
      "A1".data "ZZ".data (by decide) (by decide)).2 ("A", 1) (by decide)
      (Or.inr (by decide))

/-- C4: single-cell resolution.  For a well-formed single-cell token (the
token splits into letters and a positive row and the letters name a valid
column), resolution out of bounds returns the missing marker together with
a warning and never raises; in bounds it returns the scalar stored at the
0-based position (row-1, col-1). -/
theorem claim_C4_single_cell (df : DataFrame) (t colStr : String) (row colNum : Nat)
    (hnc : strContains t ':' = false)
    (hsplit : splitCellToken t = some (colStr, row))
    (hcol : column_index_from_string colStr = some colNum) :
    (df.numRows < row →
      get_range_data_from_pandas df t = .ok (.pyNone, [.warnSingleRow row t df.numRows]))
  ∧ (row ≤ df.numRows → df.numCols ≤ colNum - 1 →
      get_range_data_from_pandas df t =
        .ok (.pyNone, [.warnSingleCol colStr (colNum - 1) t df.numCols]))
  ∧ (1 ≤ row → row ≤ df.numRows → colNum - 1 < df.numCols →
      get_range_data_from_pandas df t =
        .ok (.scalar ((df.cells.getD (row - 1) []).getD (colNum - 1) Cell.nan), [])) := by
  refine ⟨?_, ?_, ?_⟩
  · intro hr
    simp [get_range_data_from_pandas, hnc, hsplit, hcol, hr]
  · intro hr hcl
    have hr' : ¬ df.numRows < row := by omega
    simp [get_range_data_from_pandas, hnc, hsplit, hcol, hr', hcl]
  · intro h1 hr hcl
    have hr' : ¬ df.numRows < row := by omega
    have hcl' : ¬ df.numCols ≤ colNum - 1 := by omega
    have hcast : (row : Int) - 1 = ((row - 1 : Nat) : Int) := by omega
    simp only [get_range_data_from_pandas, hnc, hsplit, hcol, hr', hcl', if_false, if_neg,
      hcast, iloc_nonneg]
    simp [hr', hcl']

theorem claim_C4_single_cell_witness :
    get_range_data_from_pandas ⟨[[Cell.num 7]], 1⟩ "A5" =
      .ok (.pyNone, [.warnSingleRow 5 "A5" 1])
  ∧ get_range_data_from_pandas ⟨[[Cell.num 7]], 1⟩ "B1" =
      .ok (.pyNone, [.warnSingleCol "B" 1 "B1" 1])
  ∧ get_range_data_from_pandas ⟨[[Cell.num 7]], 1⟩ "A1" =
      .ok (.scalar (Cell.num 7), []) := by
  refine ⟨?_, ?_, ?_⟩
  · exact (claim_C4_single_cell ⟨[[Cell.num 7]], 1⟩ "A5" "A" 5 1 (by decide) (by decide)
      (by decide)).1 (by decide)
  · exact (claim_C4_single_cell ⟨[[Cell.num 7]], 1⟩ "B1" "B" 1 2 (by decide) (by decide)
      (by decide)).2.1 (by decide) (by decide)
  · exact (claim_C4_single_cell ⟨[[Cell.num 7]], 1⟩ "A1" "A" 1 1 (by decide) (by decide)
      (by decide)).2.2 (by decide) (by decide) (by decide)

/-- C3: range resolution with an out-of-bounds row.  For a well-formed range
token whose start row or end row exceeds the sheet's row count, resolution
returns the empty sequence together with a warning — the whole range is
dropped and no error is raised. -/
theorem claim_C3_range_row_oob (df : DataFrame) (t : String) (s1 s2 : List Char)
    (sColStr eColStr : String) (sRow eRow sColNum eColNum : Nat)
    (hc : strContains t ':' = true)
    (hsplit : splitOnChar ':' t.data = [s1, s2])
    (h1 : splitCellToken ⟨s1⟩ = some (sColStr, sRow))
    (h2 : splitCellToken ⟨s2⟩ = some (eColStr, eRow))
    (hc1 : column_index_from_string sColStr = some sColNum)
    (hc2 : column_index_from_string eColStr = some eColNum)
    (hoob : df.numRows < sRow ∨ df.numRows < eRow) :
    get_range_data_from_pandas df t = .ok (.seq [], [.warnRangeRows t df.numRows]) := by
  simp [get_range_data_from_pandas, hc, hsplit, h1, h2, hc1, hc2, hoob]

theorem claim_C3_range_row_oob_witness :
    get_range_data_from_pandas ⟨[[Cell.num 7]], 1⟩ "A5:B6" =
      .ok (.seq [], [.warnRangeRows "A5:B6" 1]) :=
  claim_C3_range_row_oob ⟨[[Cell.num 7]], 1⟩ "A5:B6" "A5".data "B6".data "A" "B" 5 6 1 2
    (by decide) (by decide) (by decide) (by decide) (by decide) (by decide)
    (Or.inl (by decide))

theorem pyRange_natCast (a b : Nat) :
    pyRange (a : Int) (b : Int) = (List.range (b - a)).map (fun k => ((a + k : Nat) : Int)) := by
  unfold pyRange
  have ht : ((b : Int) - (a : Int)).toNat = b - a := by omega
  rw [ht]
  apply List.map_congr_left
  intro k _
  simp [Int.ofNat_eq_natCast]

theorem getD_drop (l : List α) (d : α) (s k : Nat) :
    (l.drop s).getD k d = l.getD (s + k) d := by
  induction s generalizing l with
  | zero => simp
  | succ s ih =>
    cases l with
    | nil => simp
    | cons a t =>
      rw [List.drop_succ_cons, ih t]
      rw [Nat.succ_add, List.getD_cons_succ]

theorem range_map_getD_eq_take (l : List α) (d : α) (n : Nat) (h : n ≤ l.length) :
    (List.range n).map (fun k => l.getD k d) = l.take n := by
  induction n generalizing l with
  | zero => simp
  | succ n ih =>
    cases l with
    | nil => simp at h
    | cons a t =>
      rw [List.range_succ_eq_map, List.map_cons, List.map_map, List.take_succ_cons]
      have hfun : ((fun k => (a :: t).getD k d) ∘ Nat.succ) = fun k => t.getD k d := by
        funext k
        simp [List.getD_cons_succ]
      rw [List.getD_cons_zero, hfun, ih t (by simpa using h)]

theorem range_map_getD_eq_drop_take (l : List α) (d : α) (s n : Nat) (h : s + n ≤ l.length) :
    (List.range n).map (fun k => l.getD (s + k) d) = (l.drop s).take n := by
  have hpt : ∀ k : Nat, l.getD (s + k) d = (l.drop s).getD k d :=
    fun k => (getD_drop l d s k).symm
  calc (List.range n).map (fun k => l.getD (s + k) d)
      = (List.range n).map (fun k => (l.drop s).getD k d) := by
        apply List.map_congr_left
        intro k _
        exact hpt k
    _ = (l.drop s).take n := by
        apply range_map_getD_eq_take
        rw [List.length_drop]
        omega

theorem flatten_map_const_length (l : List α) (g : α → List β) (c : Nat)
    (h : ∀ x ∈ l, (g x).length = c) : ((l.map g).flatten).length = l.length * c := by
  induction l with
  | nil => simp
  | cons a t ih =>
    simp only [List.map_cons, List.flatten_cons, List.length_append, List.length_cons]
    rw [h a (by simp), ih (fun x hx => h x (by simp [hx]))]
    ring

theorem inner_chunk_eq (row : List Cell) (numCols sColIdx : Nat)
    (hlen : row.length = numCols) (h4 : sColIdx ≤ numCols) :
    (List.range (numCols - sColIdx)).map (fun j => some (row.getD (sColIdx + j) Cell.nan))
      = (row.drop sColIdx).map some := by
  calc (List.range (numCols - sColIdx)).map (fun j => some (row.getD (sColIdx + j) Cell.nan))
      = ((List.range (numCols - sColIdx)).map (fun j => row.getD (sColIdx + j) Cell.nan)).map
          some := by rw [List.map_map]; rfl
    _ = ((row.drop sColIdx).take (numCols - sColIdx)).map some := by
        rw [range_map_getD_eq_drop_take row Cell.nan sColIdx (numCols - sColIdx) (by omega)]
    _ = (row.drop sColIdx).map some := by
        congr 1
        apply List.take_of_length_le
        rw [List.length_drop, hlen]

/-- C2 counterexample: the claim as stated fails when the start column also
lies beyond the sheet.  On a 1-by-2 grid, "F1:H1" (start column index 5, end
column index 7, expected flattened length (1-1+1)*(7-5+1) = 3) returns six
padding markers, because the source always pads `end_col_idx + 1 - num_cols`
entries per row regardless of where the range starts. -/
theorem claim_C2_counterexample :
    get_range_data_from_pandas ⟨[[Cell.num 1, Cell.num 2]], 2⟩ "F1:H1" =
      .ok (.seq (List.replicate 6 (none : Option Cell)), [.warnRangeCols "F1:H1" 2])
  ∧ (List.replicate 6 (none : Option Cell)).length ≠ (1 + 1 - 1) * (7 + 1 - 5) :=
  ⟨by decide, by decide⟩

/-- C2 (amended): range resolution with an out-of-bounds end column.  For a
rectangular grid and a parsed range with 1 ≤ start_row ≤ end_row ≤
row_count, start column index at most col_count and end column index at
least col_count, resolution returns, row-major (rows outer, columns inner),
each row's in-bounds tail slice followed by one missing marker per excluded
column, and the flattened length equals
(end_row - start_row + 1) * (end_col - start_col + 1). -/
theorem claim_C2_range_col_oob (df : DataFrame) (sRow eRow sColIdx eColIdx : Nat)
    (hrect : ∀ r ∈ df.cells, r.length = df.numCols)
    (h1 : 1 ≤ sRow) (h2 : sRow ≤ eRow) (h3 : eRow ≤ df.numRows)
    (h4 : sColIdx ≤ df.numCols) (h5 : df.numCols ≤ eColIdx) :
    rangeValues df sRow eRow sColIdx eColIdx =
      (((df.cells.drop (sRow - 1)).take (eRow + 1 - sRow)).map fun row =>
        (row.drop sColIdx).map some ++
          List.replicate (eColIdx + 1 - df.numCols) (none : Option Cell)).flatten
  ∧ (rangeValues df sRow eRow sColIdx eColIdx).length =
      (eRow + 1 - sRow) * (eColIdx + 1 - sColIdx) := by
  have hcells : df.numRows = df.cells.length := rfl
  have hminR : min (eRow : Int) (df.numRows : Int) = (eRow : Int) := by
    rw [min_eq_left]
    exact_mod_cast h3
  have hminC : min ((eColIdx : Int) + 1) (df.numCols : Int) = (df.numCols : Int) := by
    rw [min_eq_right]
    have h6 : df.numCols ≤ eColIdx + 1 := by omega
    exact_mod_cast h6
  have hlo : (sRow : Int) - 1 = ((sRow - 1 : Nat) : Int) := by omega
  have hn : eRow - (sRow - 1) = eRow + 1 - sRow := by omega
  have hmain : rangeValues df sRow eRow sColIdx eColIdx =
      (((df.cells.drop (sRow - 1)).take (eRow + 1 - sRow)).map fun row =>
        (row.drop sColIdx).map some ++
          List.replicate (eColIdx + 1 - df.numCols) (none : Option Cell)).flatten := by
    unfold rangeValues
    simp only [hminR, hminC, hlo, pyRange_natCast, hn, List.map_map]
    have houter : (List.range (eRow + 1 - sRow)).map (fun k => df.cells.getD (sRow - 1 + k) [])
        = (df.cells.drop (sRow - 1)).take (eRow + 1 - sRow) :=
      range_map_getD_eq_drop_take df.cells [] (sRow - 1) (eRow + 1 - sRow) (by omega)
    rw [← houter, List.map_map]
    congr 1
    apply List.map_congr_left
    intro k hk
    have hklt : k < eRow + 1 - sRow := List.mem_range.mp hk
    simp only [Function.comp]
    rw [if_pos h5]
    congr 1
    have hrlt : sRow - 1 + k < df.cells.length := by omega
    have hrowmem : df.cells.getD (sRow - 1 + k) [] ∈ df.cells := by
      rw [List.getD_eq_getElem df.cells [] hrlt]
      exact List.getElem_mem hrlt
    have hrowlen := hrect _ hrowmem
    rw [← inner_chunk_eq (df.cells.getD (sRow - 1 + k) []) df.numCols sColIdx hrowlen h4]
    apply List.map_congr_left
    intro j hj
    simp only [Function.comp]
    rw [iloc_nonneg]
  refine ⟨hmain, ?_⟩
  have hconst : ∀ row ∈ (df.cells.drop (sRow - 1)).take (eRow + 1 - sRow),
      ((row.drop sColIdx).map some ++
        List.replicate (eColIdx + 1 - df.numCols) (none : Option Cell)).length
        = eColIdx + 1 - sColIdx := by
    intro row hrow
    have hmem : row ∈ df.cells := List.mem_of_mem_drop (List.mem_of_mem_take hrow)
    have hlen := hrect row hmem
    rw [List.length_append, List.length_map, List.length_drop, List.length_replicate, hlen]
    omega
  rw [hmain, flatten_map_const_length _ _ _ hconst, List.length_take, List.length_drop]
  have hminT : min (eRow + 1 - sRow) (df.cells.length - (sRow - 1)) = eRow + 1 - sRow := by
    omega
  rw [hminT]

theorem claim_C2_range_col_oob_witness :
    rangeValues ⟨[[Cell.num 1, Cell.num 2]], 2⟩ 1 1 1 3 =
      [some (Cell.num 2), none, none]
  ∧ (rangeValues ⟨[[Cell.num 1, Cell.num 2]], 2⟩ 1 1 1 3).length = (1 + 1 - 1) * (3 + 1 - 1) := by
  have h := claim_C2_range_col_oob ⟨[[Cell.num 1, Cell.num 2]], 2⟩ 1 1 1 3
    (by decide) (by decide) (by decide) (by decide) (by decide) (by decide)
  refine ⟨?_, h.2⟩
  rw [h.1]
  decide

theorem dictLookup_dictInsert_self (d : Record) (k : String) (v : EVal) :
    dictLookup (dictInsert d k v) k = some v := by
  induction d with
  | nil => simp [dictInsert, dictLookup]
  | cons p rest ih =>
    by_cases h : p.1 = k
    · simp [dictInsert, h, dictLookup]
    · simp [dictInsert, h, dictLookup, ih]

theorem dictLookup_dictInsert_other (d : Record) (k k' : String) (v : EVal) (h : k' ≠ k) :
    dictLookup (dictInsert d k v) k' = dictLookup d k' := by
  induction d with
  | nil => simp [dictInsert, dictLookup, Ne.symm h]
  | cons p rest ih =>
    by_cases hp : p.1 = k
    · have h1 : dictInsert (p :: rest) k v = (k, v) :: rest := by
        unfold dictInsert
        rw [if_pos hp]
      have hpk : ¬ p.1 = k' := fun he => h (he.symm.trans hp)
      rw [h1]
      unfold dictLookup
      rw [if_neg (fun he : k = k' => h he.symm), if_neg hpk]
    · have h1 : dictInsert (p :: rest) k v = p :: dictInsert rest k v := by
        simp only [dictInsert]
        rw [if_neg hp]
      rw [h1]
      unfold dictLookup
      by_cases hq : p.1 = k'
      · rw [if_pos hq, if_pos hq]
      · rw [if_neg hq, if_neg hq, ih]

theorem countKey_dictInsert_self (d : Record) (k : String) (v : EVal)
    (h : countKey d k ≤ 1) : countKey (dictInsert d k v) k = 1 := by
  induction d with
  | nil => simp [dictInsert, countKey]
  | cons p rest ih =>
    by_cases hp : p.1 = k
    · have hrest : countKey rest k = 0 := by
        simp [countKey, hp] at h
        omega
      have h1 : dictInsert (p :: rest) k v = (k, v) :: rest := by
        unfold dictInsert
        rw [if_pos hp]
      rw [h1]
      simp [countKey, hrest]
    · have hle : countKey rest k ≤ 1 := by
        simp [countKey, hp] at h
        omega
      have h1 : dictInsert (p :: rest) k v = p :: dictInsert rest k v := by
        simp only [dictInsert]
        rw [if_neg hp]
      rw [h1]
      simp [countKey, hp, ih hle]

theorem countKey_dictInsert_other (d : Record) (k k' : String) (v : EVal) (h : k' ≠ k) :
    countKey (dictInsert d k v) k' = countKey d k' := by
  induction d with
  | nil => simp [dictInsert, countKey, Ne.symm h]
  | cons p rest ih =>
    by_cases hp : p.1 = k
    · have hpk : ¬ p.1 = k' := fun he => h (he.symm.trans hp)
      have h1 : dictInsert (p :: rest) k v = (k, v) :: rest := by
        unfold dictInsert
        rw [if_pos hp]
      rw [h1]
      simp [countKey, Ne.symm h, hpk]
    · have h1 : dictInsert (p :: rest) k v = p :: dictInsert rest k v := by
        simp only [dictInsert]
        rw [if_neg hp]
      rw [h1]
      simp [countKey, ih]

theorem countKey_le_one_dictInsert (d : Record) (k k' : String) (v : EVal)
    (h : countKey d k' ≤ 1) : countKey (dictInsert d k v) k' ≤ 1 := by
  by_cases hk : k' = k
  · subst hk
    rw [countKey_dictInsert_self d k' v h]
  · rw [countKey_dictInsert_other d k k' v hk]
    exact h

theorem dictHasKey_dictInsert_self (d : Record) (k : String) (v : EVal) :
    dictHasKey (dictInsert d k v) k = true := by
  simp [dictHasKey, dictLookup_dictInsert_self]

theorem dictHasKey_dictInsert_of (d : Record) (k k' : String) (v : EVal)
    (h : dictHasKey d k' = true) : dictHasKey (dictInsert d k v) k' = true := by
  by_cases hk : k' = k
  · subst hk
    exact dictHasKey_dictInsert_self d k' v
  · rw [dictHasKey, dictLookup_dictInsert_other d k k' v hk]
    exact h

/-- The record component of the worksheet extraction loop, as a plain fold
over the specs. -/
def foldSpecs (df : DataFrame) (sheet : String) (d : Record)
    (specs : List (String × String)) : Record :=
  specs.foldl (fun acc p => dictInsert acc p.2 (.exV (resolveField df p.1 sheet).1)) d

/-- The log lines printed by the worksheet extraction loop, in order. -/
def logsSpecs (df : DataFrame) (sheet : String) (specs : List (String × String)) : List LogMsg :=
  (specs.map fun p => (resolveField df p.1 sheet).2).flatten

theorem extractRecord_eq (df : DataFrame) (sheet src : String)
    (specs : List (String × String)) :
    extractRecord df sheet src specs =
      (foldSpecs df sheet (initRecord sheet src) specs, logsSpecs df sheet specs) := by
  suffices hgen : ∀ (l : List (String × String)) (d : Record) (w : List LogMsg),
      l.foldl (fun acc spec =>
        (dictInsert acc.1 spec.2 (.exV (resolveField df spec.1 sheet).1),
         acc.2 ++ (resolveField df spec.1 sheet).2)) (d, w)
      = (foldSpecs df sheet d l, w ++ logsSpecs df sheet l) by
    have h := hgen specs (initRecord sheet src) []
    simpa [extractRecord] using h
  intro l
  induction l with
  | nil => intro d w; simp [foldSpecs, logsSpecs]
  | cons p rest ih =>
    intro d w
    rw [List.foldl_cons, ih]
    simp [foldSpecs, logsSpecs, List.append_assoc]

theorem foldSpecs_cons (df : DataFrame) (sheet : String) (d : Record)
    (p : String × String) (rest : List (String × String)) :
    foldSpecs df sheet d (p :: rest) =
      foldSpecs df sheet (dictInsert d p.2 (.exV (resolveField df p.1 sheet).1)) rest := rfl

theorem foldSpecs_append (df : DataFrame) (sheet : String) (d : Record)
    (l1 l2 : List (String × String)) :
    foldSpecs df sheet d (l1 ++ l2) = foldSpecs df sheet (foldSpecs df sheet d l1) l2 := by
  simp [foldSpecs, List.foldl_append]

theorem dictLookup_foldSpecs_not_mem (df : DataFrame) (sheet : String)
    (specs : List (String × String)) (d : Record) (k : String)
    (h : ∀ p ∈ specs, p.2 ≠ k) :
    dictLookup (foldSpecs df sheet d specs) k = dictLookup d k := by
  induction specs generalizing d with
  | nil => rfl
  | cons p rest ih =>
    rw [foldSpecs_cons, ih _ (fun q hq => h q (by simp [hq]))]
    exact dictLookup_dictInsert_other d p.2 k _ (fun he => h p (by simp) he.symm)

theorem countKey_foldSpecs_not_mem (df : DataFrame) (sheet : String)
    (specs : List (String × String)) (d : Record) (k : String)
    (h : ∀ p ∈ specs, p.2 ≠ k) :
    countKey (foldSpecs df sheet d specs) k = countKey d k := by
  induction specs generalizing d with
  | nil => rfl
  | cons p rest ih =>
    rw [foldSpecs_cons, ih _ (fun q hq => h q (by simp [hq]))]
    exact countKey_dictInsert_other d p.2 k _ (fun he => h p (by simp) he.symm)

theorem countKey_foldSpecs_le_one (df : DataFrame) (sheet : String)
    (specs : List (String × String)) (d : Record) (k : String)
    (h : countKey d k ≤ 1) : countKey (foldSpecs df sheet d specs) k ≤ 1 := by
  induction specs generalizing d with
  | nil => exact h
  | cons p rest ih =>
    rw [foldSpecs_cons]
    exact ih _ (countKey_le_one_dictInsert d p.2 k _ h)

theorem dictLookup_foldSpecs_congr (df : DataFrame) (sheet : String)
    (specs : List (String × String)) (d d' : Record) (k : String)
    (h : dictLookup d k = dictLookup d' k) :
    dictLookup (foldSpecs df sheet d specs) k = dictLookup (foldSpecs df sheet d' specs) k := by
  induction specs generalizing d d' with
  | nil => exact h
  | cons p rest ih =>
    rw [foldSpecs_cons, foldSpecs_cons]
    apply ih
    by_cases hp : p.2 = k
    · subst hp
      rw [dictLookup_dictInsert_self, dictLookup_dictInsert_self]
    · rw [dictLookup_dictInsert_other d p.2 k _ (Ne.symm hp),
        dictLookup_dictInsert_other d' p.2 k _ (Ne.symm hp), h]

theorem dictHasKey_foldSpecs_of (df : DataFrame) (sheet : String)
    (specs : List (String × String)) (d : Record) (k : String)
    (h : dictHasKey d k = true) : dictHasKey (foldSpecs df sheet d specs) k = true := by
  induction specs generalizing d with
  | nil => exact h
  | cons p rest ih =>
    rw [foldSpecs_cons]
    exact ih _ (dictHasKey_dictInsert_of d p.2 k _ h)

theorem dictHasKey_foldSpecs_mem (df : DataFrame) (sheet : String)
    (specs : List (String × String)) (d : Record) (k : String)
    (h : k ∈ specs.map Prod.snd) : dictHasKey (foldSpecs df sheet d specs) k = true := by
  induction specs generalizing d with
  | nil => simp at h
  | cons p rest ih =>
    rw [List.map_cons] at h
    rcases List.mem_cons.mp h with he | hm
    · subst he
      rw [foldSpecs_cons]
      exact dictHasKey_foldSpecs_of df sheet rest _ _ (dictHasKey_dictInsert_self d _ _)
    · rw [foldSpecs_cons]
      exact ih _ hm

theorem countKey_initRecord_le_one (sheet src k : String) :
    countKey (initRecord sheet src) k ≤ 1 := by
  unfold initRecord
  by_cases h1 : "sheet" = k <;> by_cases h2 : "source_file" = k
  · exact absurd (h1.trans h2.symm) (by decide)
  all_goals simp [countKey, h1, h2]

theorem dictLookup_initRecord_sheet (sheet src : String) :
    dictLookup (initRecord sheet src) "sheet" = some (.strV sheet) := by
  simp [initRecord, dictLookup]

theorem dictLookup_initRecord_source (sheet src : String) :
    dictLookup (initRecord sheet src) "source_file" = some (.strV src) := by
  simp [initRecord, dictLookup]

/-- Key presence in a worksheet record: the two reserved keys and every spec
header are always present. -/
theorem extractRecord_hasKey (df : DataFrame) (sheet src : String)
    (parsed : List (String × String)) (c : String)
    (hc : c = "sheet" ∨ c = "source_file" ∨ c ∈ parsed.map Prod.snd) :
    dictHasKey (extractRecord df sheet src parsed).1 c = true := by
  rw [extractRecord_eq]
  rcases hc with hc | hc | hc
  · subst hc
    exact dictHasKey_foldSpecs_of df sheet parsed _ _
      (by simp [dictHasKey, dictLookup_initRecord_sheet])
  · subst hc
    exact dictHasKey_foldSpecs_of df sheet parsed _ _
      (by simp [dictHasKey, dictLookup_initRecord_source])
  · exact dictHasKey_foldSpecs_mem df sheet parsed _ _ hc

theorem dictLookup_extractRecord_last (df : DataFrame) (sheet src : String)
    (pre post : List (String × String)) (e h : String)
    (hlast : ∀ p ∈ post, p.2 ≠ h) :
    dictLookup (extractRecord df sheet src (pre ++ (e, h) :: post)).1 h
      = some (.exV (resolveField df e sheet).1) := by
  rw [extractRecord_eq]
  rw [foldSpecs_append, foldSpecs_cons,
    dictLookup_foldSpecs_not_mem df sheet post _ h hlast,
    dictLookup_dictInsert_self]

/-- C10: duplicate field names.  When several specs share one field name,
the produced record maps that name to the value extracted by the last such
spec in declaration order, and the record holds exactly one binding for the
name — earlier values are overwritten and absent. -/
theorem claim_C10_duplicate_fields (df : DataFrame) (sheet src : String)
    (pre post : List (String × String)) (e h : String)
    (hlast : ∀ p ∈ post, p.2 ≠ h) :
    dictLookup (extractRecord df sheet src (pre ++ (e, h) :: post)).1 h
      = some (.exV (resolveField df e sheet).1)
  ∧ countKey (extractRecord df sheet src (pre ++ (e, h) :: post)).1 h = 1 := by
  constructor
  · exact dictLookup_extractRecord_last df sheet src pre post e h hlast
  · rw [extractRecord_eq]
    rw [foldSpecs_append, foldSpecs_cons,
      countKey_foldSpecs_not_mem df sheet post _ h hlast,
      countKey_dictInsert_self]
    exact countKey_foldSpecs_le_one df sheet pre _ h (countKey_initRecord_le_one sheet src h)

theorem claim_C10_duplicate_fields_witness :
    dictLookup (extractRecord ⟨[[Cell.num 7, Cell.num 8]], 2⟩ "S" "f"
      [("A1", "x"), ("B1", "x"), ("A1", "y")]).1 "x"
      = some (.exV (.scalar (Cell.num 8)))
  ∧ countKey (extractRecord ⟨[[Cell.num 7, Cell.num 8]], 2⟩ "S" "f"
      [("A1", "x"), ("B1", "x"), ("A1", "y")]).1 "x" = 1 := by
  have h := claim_C10_duplicate_fields ⟨[[Cell.num 7, Cell.num 8]], 2⟩ "S" "f"
    [("A1", "x")] [("A1", "y")] "B1" "x" (by decide)
  exact ⟨h.1.trans (by decide), h.2⟩

/-- C6: per-spec failure containment.  When resolving one spec raises, the
error is logged, the spec's field is set to the missing marker (when no
later spec reuses the name), and every other field of the record is exactly
what it would have been had the loop simply moved on to the next spec. -/
theorem claim_C6_per_spec_failure (df : DataFrame) (sheet src : String)
    (pre post : List (String × String)) (e h : String) (err : ExtractError)
    (herr : get_range_data_from_pandas df e = .error err)
    (hlast : ∀ p ∈ post, p.2 ≠ h) :
    dictLookup (extractRecord df sheet src (pre ++ (e, h) :: post)).1 h
      = some (.exV .pyNone)
  ∧ LogMsg.errorExtracting e sheet err ∈ (extractRecord df sheet src (pre ++ (e, h) :: post)).2
  ∧ ∀ k, k ≠ h →
      dictLookup (extractRecord df sheet src (pre ++ (e, h) :: post)).1 k
        = dictLookup (extractRecord df sheet src (pre ++ post)).1 k := by
  have hres : resolveField df e sheet = (.pyNone, [.errorExtracting e sheet err]) := by
    simp [resolveField, herr]
  refine ⟨?_, ?_, ?_⟩
  · rw [dictLookup_extractRecord_last df sheet src pre post e h hlast, hres]
  · rw [extractRecord_eq]
    simp only [logsSpecs]
    rw [List.mem_flatten]
    refine ⟨(resolveField df e sheet).2, ?_, by rw [hres]; simp⟩
    rw [List.mem_map]
    exact ⟨(e, h), by simp, rfl⟩
  · intro k hk
    rw [extractRecord_eq, extractRecord_eq]
    simp only
    rw [foldSpecs_append, foldSpecs_append, foldSpecs_cons]
    exact dictLookup_foldSpecs_congr df sheet post _ _ k
      (dictLookup_dictInsert_other _ h k _ hk)

theorem claim_C6_per_spec_failure_witness :
    dictLookup (extractRecord ⟨[[Cell.num 7]], 1⟩ "S" "f" [("ABC", "v")]).1 "v"
      = some (.exV .pyNone)
  ∧ LogMsg.errorExtracting "ABC" "S" (.invalidCellFormat "ABC")
      ∈ (extractRecord ⟨[[Cell.num 7]], 1⟩ "S" "f" [("ABC", "v")]).2
  ∧ dictLookup (extractRecord ⟨[[Cell.num 7]], 1⟩ "S" "f" [("ABC", "v")]).1 "sheet"
      = dictLookup (extractRecord ⟨[[Cell.num 7]], 1⟩ "S" "f" []).1 "sheet" := by
  have h := claim_C6_per_spec_failure ⟨[[Cell.num 7]], 1⟩ "S" "f" [] []
    "ABC" "v" (.invalidCellFormat "ABC") (by decide) (by simp)
  exact ⟨h.1, h.2.1, h.2.2 "sheet" (by decide)⟩

theorem sheetRecords_length (sheets : List Sheet) (src : String)
    (parsed : List (String × String)) :
    (sheetRecords sheets src parsed).length
      = (sheets.filter fun s => s.read.isSome).length := by
  induction sheets with
  | nil => rfl
  | cons s rest ih =>
    cases hread : s.read with
    | none => simpa [sheetRecords, List.filterMap_cons, List.filter_cons, hread] using ih
    | some df => simpa [sheetRecords, List.filterMap_cons, List.filter_cons, hread] using ih

/-- C5: worksheet extraction totality.  Every successfully read worksheet
yields exactly one record (one record per readable sheet, in order); the
record always holds the reserved keys `sheet` and `source_file`, and — as
long as no spec reuses those reserved names — they hold the worksheet name
and the source file name, whatever the specs did. -/
theorem claim_C5_worksheet_totality (sheets : List Sheet) (src : String)
    (parsed : List (String × String)) :
    (sheetRecords sheets src parsed).length
      = (sheets.filter fun s => s.read.isSome).length
  ∧ ∀ s ∈ sheets, ∀ df, s.read = some df →
      (extractRecord df s.name src parsed).1 ∈ sheetRecords sheets src parsed
      ∧ dictHasKey (extractRecord df s.name src parsed).1 "sheet" = true
      ∧ dictHasKey (extractRecord df s.name src parsed).1 "source_file" = true
      ∧ ("sheet" ∉ parsed.map Prod.snd →
          dictLookup (extractRecord df s.name src parsed).1 "sheet" = some (.strV s.name))
      ∧ ("source_file" ∉ parsed.map Prod.snd →
          dictLookup (extractRecord df s.name src parsed).1 "source_file"
            = some (.strV src)) := by
  refine ⟨sheetRecords_length sheets src parsed, ?_⟩
  intro s hs df hread
  refine ⟨?_, ?_, ?_, ?_, ?_⟩
  · unfold sheetRecords
    rw [List.mem_filterMap]
    exact ⟨s, hs, by rw [hread]; rfl⟩
  · exact extractRecord_hasKey df s.name src parsed "sheet" (Or.inl rfl)
  · exact extractRecord_hasKey df s.name src parsed "source_file" (Or.inr (Or.inl rfl))
  · intro hmem
    rw [extractRecord_eq]
    simp only
    rw [dictLookup_foldSpecs_not_mem df s.name parsed _ "sheet"
      (fun p hp he => hmem (he ▸ List.mem_map_of_mem Prod.snd hp))]
    exact dictLookup_initRecord_sheet s.name src
  · intro hmem
    rw [extractRecord_eq]
    simp only
    rw [dictLookup_foldSpecs_not_mem df s.name parsed _ "source_file"
      (fun p hp he => hmem (he ▸ List.mem_map_of_mem Prod.snd hp))]
    exact dictLookup_initRecord_source s.name src

theorem claim_C5_worksheet_totality_witness :
    (sheetRecords [⟨"S1", some ⟨[[Cell.num 7]], 1⟩⟩, ⟨"S2", none⟩] "f" []).length
      = ([⟨"S1", some ⟨[[Cell.num 7]], 1⟩⟩, (⟨"S2", none⟩ : Sheet)].filter
          fun s => s.read.isSome).length
  ∧ (extractRecord ⟨[[Cell.num 7]], 1⟩ "S1" "f" []).1
      ∈ sheetRecords [⟨"S1", some ⟨[[Cell.num 7]], 1⟩⟩, ⟨"S2", none⟩] "f" []
  ∧ dictHasKey (extractRecord ⟨[[Cell.num 7]], 1⟩ "S1" "f" []).1 "sheet" = true
  ∧ dictHasKey (extractRecord ⟨[[Cell.num 7]], 1⟩ "S1" "f" []).1 "source_file" = true
  ∧ dictLookup (extractRecord ⟨[[Cell.num 7]], 1⟩ "S1" "f" []).1 "sheet"
      = some (.strV "S1")
  ∧ dictLookup (extractRecord ⟨[[Cell.num 7]], 1⟩ "S1" "f" []).1 "source_file"
      = some (.strV "f") := by
  have h := claim_C5_worksheet_totality [⟨"S1", some ⟨[[Cell.num 7]], 1⟩⟩, ⟨"S2", none⟩]
    "f" []
  have h2 := h.2 ⟨"S1", some ⟨[[Cell.num 7]], 1⟩⟩ (by simp) ⟨[[Cell.num 7]], 1⟩ rfl
  exact ⟨h.1, h2.1, h2.2.1, h2.2.2.1, h2.2.2.2.1 (by simp), h2.2.2.2.2 (by simp)⟩

theorem mem_mergeRecords (files : List InputFile) (parsed : List (String × String))
    (r : Record) (hr : r ∈ mergeRecords files parsed) :
    ∃ f ∈ files, ∃ sheets, f.wb = some sheets ∧ ∃ s ∈ sheets, ∃ df, s.read = some df ∧
      r = (extractRecord df s.name (basename f.path) parsed).1 := by
  unfold mergeRecords at hr
  rw [List.mem_flatten] at hr
  obtain ⟨l, hl, hrl⟩ := hr
  rw [List.mem_map] at hl
  obtain ⟨f, hf, hfl⟩ := hl
  subst hfl
  cases hwb : f.wb with
  | none => rw [hwb] at hrl; simp at hrl
  | some sheets =>
    rw [hwb] at hrl
    unfold sheetRecords at hrl
    rw [List.mem_filterMap] at hrl
    obtain ⟨s, hs, hmap⟩ := hrl
    cases hread : s.read with
    | none => rw [hread] at hmap; simp at hmap
    | some df =>
      rw [hread] at hmap
      simp at hmap
      exact ⟨f, hf, sheets, hwb, s, hs, df, hread, hmap.symm⟩

theorem mergeRecords_keys (files : List InputFile) (parsed : List (String × String))
    (r : Record) (hr : r ∈ mergeRecords files parsed) (c : String)
    (hc : c = "sheet" ∨ c = "source_file" ∨ c ∈ parsed.map Prod.snd) :
    dictHasKey r c = true := by
  obtain ⟨f, _, sheets, _, s, _, df, _, rfl⟩ := mem_mergeRecords files parsed r hr
  exact extractRecord_hasKey df s.name (basename f.path) parsed c hc

theorem finalColumns_full (parsed : List (String × String)) (recs : List Record)
    (hne : recs ≠ [])
    (hall : ∀ r ∈ recs, ∀ c, (c = "sheet" ∨ c = "source_file" ∨ c ∈ parsed.map Prod.snd) →
      dictHasKey r c = true) :
    finalColumns parsed recs = ["sheet", "source_file"] ++ parsed.map Prod.snd := by
  unfold finalColumns
  rw [List.filter_eq_self]
  intro c hc
  have hc' : c = "sheet" ∨ c = "source_file" ∨ c ∈ parsed.map Prod.snd := by
    rcases List.mem_append.mp hc with h1 | h1
    · rcases (by simpa using h1 : c = "sheet" ∨ c = "source_file") with h2 | h2
      · exact Or.inl h2
      · exact Or.inr (Or.inl h2)
    · exact Or.inr (Or.inr h1)
  rcases recs with _ | ⟨r, rest⟩
  · exact absurd rfl hne
  exact List.any_eq_true.mpr ⟨r, by simp, hall r (by simp) c hc'⟩

/-- C8: merge mode.  Over any list of input files, merge mode fails with
`NoDataExtracted` exactly when zero records were produced across all files;
otherwise it writes one table holding the accumulated records of every file,
with column order `[sheet, source_file, field names in declaration order]`
(no column is dropped, because every produced record holds every key). -/
theorem claim_C8_merge_mode (files : List InputFile) (params : List String) :
    (extract_to_single_file files params = .error .noDataExtracted ↔
      mergeRecords files (parse_position_args params) = [])
  ∧ (mergeRecords files (parse_position_args params) ≠ [] →
      extract_to_single_file files params =
        .ok ⟨["sheet", "source_file"] ++ (parse_position_args params).map Prod.snd,
             mergeRecords files (parse_position_args params)⟩) := by
  constructor
  · constructor
    · intro h
      by_contra hne
      unfold extract_to_single_file at h
      rw [if_neg (by simpa [List.isEmpty_iff] using hne)] at h
      exact Except.noConfusion h
    · intro h
      unfold extract_to_single_file
      rw [if_pos (by simp [List.isEmpty_iff, h])]
  · intro hne
    unfold extract_to_single_file
    rw [if_neg (by simpa [List.isEmpty_iff] using hne)]
    rw [finalColumns_full _ _ hne
      (fun r hr c hc => mergeRecords_keys files _ r hr c hc)]

theorem claim_C8_merge_mode_witness :
    mergeRecords [⟨"a.xlsx", some [⟨"S1", some ⟨[[Cell.num 7]], 1⟩⟩]⟩, ⟨"b.xlsx", none⟩]
      (parse_position_args ["A1-val"]) ≠ []
  ∧ extract_to_single_file
      [⟨"a.xlsx", some [⟨"S1", some ⟨[[Cell.num 7]], 1⟩⟩]⟩, ⟨"b.xlsx", none⟩] ["A1-val"] =
      .ok ⟨["sheet", "source_file", "val"],
        [[("sheet", .strV "S1"), ("source_file", .strV "a.xlsx"),
          ("val", .exV (.scalar (Cell.num 7)))]]⟩ := by
  have h := (claim_C8_merge_mode
    [⟨"a.xlsx", some [⟨"S1", some ⟨[[Cell.num 7]], 1⟩⟩]⟩, ⟨"b.xlsx", none⟩] ["A1-val"]).2
  refine ⟨by decide, ?_⟩
  rw [h (by decide)]
  decide

/-- C9: per-file mode isolation.  A file whose extraction fails entirely is
logged and skipped and leaves the other files' outputs untouched, and every
successful file's table is written under the derived name
`{base}_{input_stem}{ext}` — one failing file never aborts the rest. -/
theorem claim_C9_per_file_mode (files1 files2 : List InputFile) (bad : InputFile)
    (params : List String) (outName : String) (err : FileError)
    (hbad : extract_excel_info_single_file bad params = .error err) :
    (extract_to_multiple_files (files1 ++ bad :: files2) params outName).1
      = (extract_to_multiple_files (files1 ++ files2) params outName).1
  ∧ LogMsg.fileFailed bad.path
      ∈ (extract_to_multiple_files (files1 ++ bad :: files2) params outName).2
  ∧ ∀ f tbl cnt, f ∈ files1 ++ bad :: files2 →
      extract_excel_info_single_file f params = .ok (tbl, cnt) →
      (derivedOutputName outName f.path, tbl)
        ∈ (extract_to_multiple_files (files1 ++ bad :: files2) params outName).1 := by
  refine ⟨?_, ?_, ?_⟩
  · unfold extract_to_multiple_files
    simp [List.filterMap_append, List.filterMap_cons, hbad]
  · unfold extract_to_multiple_files
    rw [List.mem_filterMap]
    exact ⟨bad, by simp, by rw [hbad]⟩
  · intro f tbl cnt hf hok
    unfold extract_to_multiple_files
    rw [List.mem_filterMap]
    exact ⟨f, hf, by rw [hok]⟩

theorem claim_C9_per_file_mode_witness :
    (extract_to_multiple_files
      [⟨"a.xlsx", some [⟨"S1", some ⟨[[Cell.num 7]], 1⟩⟩]⟩, ⟨"bad.xlsx", none⟩]
      ["A1-val"] "res.xlsx").1
      = (extract_to_multiple_files [⟨"a.xlsx", some [⟨"S1", some ⟨[[Cell.num 7]], 1⟩⟩]⟩]
          ["A1-val"] "res.xlsx").1
  ∧ LogMsg.fileFailed "bad.xlsx" ∈ (extract_to_multiple_files
      [⟨"a.xlsx", some [⟨"S1", some ⟨[[Cell.num 7]], 1⟩⟩]⟩, ⟨"bad.xlsx", none⟩]
      ["A1-val"] "res.xlsx").2
  ∧ ("res_a.xlsx", (⟨["sheet", "source_file", "val"],
        [[("sheet", .strV "S1"), ("source_file", .strV "a.xlsx"),
          ("val", .exV (.scalar (Cell.num 7)))]]⟩ : OutputTable))
      ∈ (extract_to_multiple_files
          [⟨"a.xlsx", some [⟨"S1", some ⟨[[Cell.num 7]], 1⟩⟩]⟩, ⟨"bad.xlsx", none⟩]
          ["A1-val"] "res.xlsx").1 := by
  have h := claim_C9_per_file_mode [⟨"a.xlsx", some [⟨"S1", some ⟨[[Cell.num 7]], 1⟩⟩]⟩] []
    ⟨"bad.xlsx", none⟩ ["A1-val"] "res.xlsx" .openFailure (by decide)
  refine ⟨h.1, h.2.1, ?_⟩
  exact h.2.2 ⟨"a.xlsx", some [⟨"S1", some ⟨[[Cell.num 7]], 1⟩⟩]⟩
    ⟨["sheet", "source_file", "val"],
      [[("sheet", .strV "S1"), ("source_file", .strV "a.xlsx"),
        ("val", .exV (.scalar (Cell.num 7)))]]⟩ 1 (by simp) (by decide)
